import Mathlib

/-!
Verification development for the task-manager MCP server.

This file gives a shallow embedding of the server's core components:
the task service (src/app/services/task_service.py), the session
service (src/app/services/session_service.py), the dynamic-client
service (src/app/services/client_service.py), the OAuth endpoints
(src/app/api/oauth.py), the token-encryption wrappers
(src/app/auth/encryption.py, over a model of the Fernet token format),
and the MCP tool dispatch (src/app/main.py, src/app/mcp/handlers.py,
src/app/mcp/tools.py).

SQL tables are modelled as lists of records; SQLAlchemy queries of the
shape `select(X).filter(...)` followed by `scalar_one_or_none()` are
modelled by `List.find?` (sound because the filtered column is the
primary key); mutation-plus-commit is modelled by explicit state
passing.  Python `datetime` values are modelled as a structure holding
an integer timestamp together with a timezone-awareness flag, so that
the defensive "treat naive as UTC" normalization in the source is
representable.  Byte strings are `List Nat` with entries below 256.
-/

namespace TaskManager

/-! ## Timestamps

Python `datetime` objects are either timezone-aware or naive.  The
source normalizes naive values by `replace(tzinfo=timezone.utc)`,
which keeps the clock reading and only marks it as UTC; comparisons
then compare the underlying instant. -/

structure PyDateTime where
  val : Int
  aware : Bool
  deriving Repr, DecidableEq

/-- Model of `expires_at.replace(tzinfo=timezone.utc)` applied only when
`expires_at.tzinfo is None`: the clock value is kept, the flag is set. -/
def tzNormalize (t : PyDateTime) : PyDateTime :=
  if t.aware then t else { val := t.val, aware := true }

/-! ## Task data model (src/app/db/models.py, class Task) -/

structure Task where
  id : Nat
  user_id : String
  title : String
  project : Option String
  priority : Nat
  energy : String
  time_estimate : String
  notes : Option String
  due_date : Option String
  completed : Bool
  completed_at : Option String
  created_at : String
  updated_at : String
  deriving Repr, DecidableEq

/-- Partial update payload (src/app/schemas/task.py, class TaskUpdate):
every field optional, only provided fields are applied
(`model_dump(exclude_unset=True)`). -/
structure TaskUpdate where
  title : Option String := none
  project : Option String := none
  priority : Option Nat := none
  energy : Option String := none
  time_estimate : Option String := none
  notes : Option String := none
  due_date : Option String := none
  deriving Repr, DecidableEq

/-- `for field, value in update_data.items(): setattr(task, field, value)`
applied to the fields present in the payload. -/
def applyTaskUpdate (t : Task) (u : TaskUpdate) : Task :=
  { t with
    title := u.title.getD t.title
    project := match u.project with | some p => some p | none => t.project
    priority := u.priority.getD t.priority
    energy := u.energy.getD t.energy
    time_estimate := u.time_estimate.getD t.time_estimate
    notes := match u.notes with | some n => some n | none => t.notes
    due_date := match u.due_date with | some d => some d | none => t.due_date }

/-! ## TaskService (src/app/services/task_service.py)

The task table is a `List Task`; `db.execute(select(Task).filter(Task.id
== task_id, Task.user_id == user_id)); result.scalar_one_or_none()` is
`List.find?` on the conjunction of the two column predicates. -/

/-- `TaskService.get_task` (task_service.py lines 130-157). -/
def get_task (db : List Task) (user_id : String) (task_id : Nat) : Option Task :=
  db.find? (fun t => t.id == task_id && t.user_id == user_id)

/-- `TaskService.update_task` (task_service.py lines 160-204): `now` is
the ISO rendering of `datetime.now(UTC)` written to `updated_at`.
Returns the response and the table after commit. -/
def update_task (db : List Task) (user_id : String) (task_id : Nat)
    (u : TaskUpdate) (now : String) : Option Task × List Task :=
  match db.find? (fun t => t.id == task_id && t.user_id == user_id) with
  | none => (none, db)
  | some _ =>
    let upd := fun t : Task =>
      if t.id == task_id && t.user_id == user_id
      then { applyTaskUpdate t u with updated_at := now } else t
    ((db.map upd).find? (fun t => t.id == task_id && t.user_id == user_id), db.map upd)

/-- `TaskService.complete_task` (task_service.py lines 206-242). -/
def complete_task (db : List Task) (user_id : String) (task_id : Nat)
    (now : String) : Option Task × List Task :=
  match db.find? (fun t => t.id == task_id && t.user_id == user_id) with
  | none => (none, db)
  | some _ =>
    let upd := fun t : Task =>
      if t.id == task_id && t.user_id == user_id
      then { t with completed := true, completed_at := some now, updated_at := now } else t
    ((db.map upd).find? (fun t => t.id == task_id && t.user_id == user_id), db.map upd)

/-- `TaskService.delete_task` (task_service.py lines 244-273):
`db.delete(task)` removes the row found by the ownership query. -/
def delete_task (db : List Task) (user_id : String) (task_id : Nat) :
    Bool × List Task :=
  match db.find? (fun t => t.id == task_id && t.user_id == user_id) with
  | none => (false, db)
  | some _ => (true, db.eraseP (fun t => t.id == task_id && t.user_id == user_id))

/-! ## MCP handler outcomes (src/app/mcp/handlers.py)

Handlers wrap the service result: a `None`/`False` service result is
rendered as the error payload with message "Task not found" and code
"NOT_FOUND"; there is no distinct forbidden outcome anywhere in the
handler code. -/

inductive ToolOutcome where
  | ok (payload : Task)
  | okDeleted
  | notFound
  deriving Repr, DecidableEq

/-- `MCPToolHandlers.task_get` (handlers.py lines 141-186), after input
validation succeeded. -/
def task_get_handler (db : List Task) (user_id : String) (task_id : Nat) : ToolOutcome :=
  match get_task db user_id task_id with
  | none => .notFound
  | some t => .ok t

/-- `MCPToolHandlers.task_update` (handlers.py lines 188-245). -/
def task_update_handler (db : List Task) (user_id : String) (task_id : Nat)
    (u : TaskUpdate) (now : String) : ToolOutcome × List Task :=
  match update_task db user_id task_id u now with
  | (none, db1) => (.notFound, db1)
  | (some t, db1) => (.ok t, db1)

/-- `MCPToolHandlers.task_complete` (handlers.py lines 247-293). -/
def task_complete_handler (db : List Task) (user_id : String) (task_id : Nat)
    (now : String) : ToolOutcome × List Task :=
  match complete_task db user_id task_id now with
  | (none, db1) => (.notFound, db1)
  | (some t, db1) => (.ok t, db1)

/-- `MCPToolHandlers.task_delete` (handlers.py lines 295-342). -/
def task_delete_handler (db : List Task) (user_id : String) (task_id : Nat) :
    ToolOutcome × List Task :=
  match delete_task db user_id task_id with
  | (false, db1) => (.notFound, db1)
  | (true, db1) => (.okDeleted, db1)

/-- Helper: under ownership by `A` and a caller `B ≠ A`, the combined
ownership predicate used by every task query rejects every row. -/
theorem ownership_filter_none (db : List Task) (A B : String) (tid : Nat)
    (hAB : B ≠ A) (hown : ∀ t ∈ db, t.id = tid → t.user_id = A) :
    db.find? (fun t => t.id == tid && t.user_id == B) = none := by
  rw [List.find?_eq_none]
  intro t ht
  simp only [Bool.and_eq_true, beq_iff_eq, not_and]
  intro hid huid
  exact hAB (huid.symm ▸ hown t ht hid)

/-- C1: for users `A ≠ B`, every task operation (`task_get`,
`task_update`, `task_complete`, `task_delete`) performed with `B`'s
authenticated user id against a task id owned by `A` yields the
not-found outcome (`None` at the service layer, the "Task not found"
payload at the handler layer), never success and never a distinct
forbidden outcome, and leaves the table unchanged. -/
theorem C1_cross_user_not_found (db : List Task) (A B : String) (tid : Nat)
    (u : TaskUpdate) (now : String)
    (hAB : B ≠ A) (hown : ∀ t ∈ db, t.id = tid → t.user_id = A) :
    get_task db B tid = none ∧
    update_task db B tid u now = (none, db) ∧
    complete_task db B tid now = (none, db) ∧
    delete_task db B tid = (false, db) ∧
    task_get_handler db B tid = .notFound ∧
    task_update_handler db B tid u now = (.notFound, db) ∧
    task_complete_handler db B tid now = (.notFound, db) ∧
    task_delete_handler db B tid = (.notFound, db) := by
  have hnone := ownership_filter_none db A B tid hAB hown
  refine ⟨hnone, ?_, ?_, ?_, ?_, ?_, ?_, ?_⟩ <;>
    simp [update_task, complete_task, delete_task, task_get_handler,
      task_update_handler, task_complete_handler, task_delete_handler,
      get_task, hnone]

/-- Witness for C1 at a concrete store: a single task with id 1 owned by
user "alice", accessed by user "bob". -/
theorem C1_cross_user_not_found_witness :
    let t : Task :=
      { id := 1, user_id := "alice", title := "t", project := none, priority := 3,
        energy := "medium", time_estimate := "1hr", notes := none, due_date := none,
        completed := false, completed_at := none, created_at := "c", updated_at := "c" }
    get_task [t] "bob" 1 = none ∧
    delete_task [t] "bob" 1 = (false, [t]) := by
  intro t
  have h := C1_cross_user_not_found [t] "alice" "bob" 1 {} "n"
    (by decide) (by intro x hx _; simp_all)
  exact ⟨h.1, h.2.2.2.1⟩

/-! ## OAuth CSRF state store (src/app/api/oauth.py)

`oauth_states: Dict[str, bool]` is a process-wide Python dict whose
keys are the pending CSRF states (every stored value is `True`).  A
dict's keys are unique, so the store is a duplicate-free list of
strings. -/

/-- `oauth_authorize` state bookkeeping (oauth.py lines 91-93): a fresh
`state = secrets.token_urlsafe(32)` is recorded by
`oauth_states[state] = True` (dict insert; a fresh key appends). -/
def oauth_authorize_states (states : List String) (fresh : String) : List String :=
  if fresh ∈ states then states else states ++ [fresh]

inductive CallbackOutcome where
  | invalidState
  | exchangeFailed
  | success
  deriving Repr, DecidableEq

/-- The state handling of `oauth_callback` (oauth.py lines 131-147):
`if state not in oauth_states: raise HTTPException(400, "Invalid state
parameter")`, then `del oauth_states[state]` before any other work; the
subsequent code exchange with the provider (modelled by the boolean
oracle `exchange_ok`) happens after the state has been removed, so its
outcome never restores the state. -/
def oauth_callback (states : List String) (state : String)
    (exchange_ok : Bool) : CallbackOutcome × List String :=
  if state ∈ states then
    let remaining := states.erase state
    if exchange_ok then (.success, remaining) else (.exchangeFailed, remaining)
  else (.invalidState, states)

/-- C2: a CSRF state accepted by one `oauth_callback` call is removed
from the pending store before any other work, so every later call
presenting the same state fails with the CSRF rejection (whatever the
exchange outcomes), and a state never issued fails outright. -/
theorem C2_state_single_use (states : List String) (s : String)
    (e1 e2 : Bool) (hnd : states.Nodup) :
    ((oauth_callback states s e1).1 ≠ .invalidState →
      (oauth_callback (oauth_callback states s e1).2 s e2).1 = .invalidState) ∧
    (s ∉ states → (oauth_callback states s e1).1 = .invalidState) := by
  constructor
  · intro hacc
    by_cases hmem : s ∈ states
    · have hout : (oauth_callback states s e1).2 = states.erase s := by
        simp [oauth_callback, hmem]
        split <;> rfl
      rw [hout]
      have : s ∉ states.erase s := hnd.not_mem_erase
      simp [oauth_callback, this]
    · exact absurd (by simp [oauth_callback, hmem]) hacc
  · intro hmem
    simp [oauth_callback, hmem]

/-- Witness for C2: store holding the two pending states "s1", "s2";
first presentation of "s1" succeeds, replaying "s1" is rejected, and
the never-issued "zz" is rejected. -/
theorem C2_state_single_use_witness :
    (oauth_callback (oauth_callback ["s1", "s2"] "s1" true).2 "s1" true).1 =
      CallbackOutcome.invalidState ∧
    (oauth_callback ["s1", "s2"] "zz" true).1 = CallbackOutcome.invalidState := by
  refine ⟨(C2_state_single_use ["s1", "s2"] "s1" true true (by decide)).1 ?_,
    (C2_state_single_use ["s1", "s2"] "zz" true true (by decide)).2 ?_⟩ <;> decide

/-! ## Token cipher interface used by the services

The services call `encrypt_token` / `decrypt_token`
(src/app/auth/encryption.py), which delegate to the Fernet cipher.  For
the session- and client-service claims the cipher is an abstract pair
of functions; the Fernet token format itself is modelled later for C3.
`β` is the type of the stored ciphertext bytes. -/

structure TokenCipher (β : Type) where
  enc : String → β
  dec : β → String

/-! ## Session data model and session service
(src/app/db/models.py class Session, src/app/services/session_service.py) -/

structure OAuthSession (β : Type) where
  session_id : String
  user_id : String
  access_token : β
  refresh_token : β
  expires_at : PyDateTime
  created_at : Int
  last_activity : Int
  user_agent : Option String
  deriving Repr, DecidableEq

/-- `get_session` (session_service.py lines 71-84):
`select(Session).where(Session.session_id == session_id)` with
`scalar_one_or_none()`; `session_id` is the primary key. -/
def get_session {β : Type} (db : List (OAuthSession β)) (sid : String) :
    Option (OAuthSession β) :=
  db.find? (fun s => s.session_id == sid)

/-- `get_decrypted_access_token` (session_service.py lines 87-103). -/
def get_decrypted_access_token {β : Type} (C : TokenCipher β)
    (db : List (OAuthSession β)) (sid : String) : Option String :=
  (get_session db sid).map (fun s => C.dec s.access_token)

/-- `get_decrypted_refresh_token` (session_service.py lines 106-122). -/
def get_decrypted_refresh_token {β : Type} (C : TokenCipher β)
    (db : List (OAuthSession β)) (sid : String) : Option String :=
  (get_session db sid).map (fun s => C.dec s.refresh_token)

/-- `validate_session` (session_service.py lines 125-155): `now` is
`datetime.now(timezone.utc)` as an instant.  Unknown id or
`expires_at <= now` (after normalizing a naive stored value to UTC)
gives `False` with no write; otherwise `session.last_activity = now` is
committed and the call returns `True`. -/
def validate_session {β : Type} (db : List (OAuthSession β)) (sid : String)
    (now : Int) : Bool × List (OAuthSession β) :=
  match get_session db sid with
  | none => (false, db)
  | some s =>
    if (tzNormalize s.expires_at).val ≤ now then (false, db)
    else
      (true, db.map (fun r => if r.session_id == sid
        then { r with last_activity := now } else r))

/-- `refresh_session` (session_service.py lines 158-191): absent id
gives `None` with no write; otherwise the encrypted access token, the
expiry and the last-activity are replaced in one commit and the updated
row is returned. -/
def refresh_session {β : Type} (C : TokenCipher β) (db : List (OAuthSession β))
    (sid : String) (new_access_token : String) (new_expires_at : PyDateTime)
    (now : Int) : Option (OAuthSession β) × List (OAuthSession β) :=
  match get_session db sid with
  | none => (none, db)
  | some _ =>
    let upd := fun r : OAuthSession β =>
      if r.session_id == sid
      then { r with
        access_token := C.enc new_access_token,
        expires_at := new_expires_at,
        last_activity := now }
      else r
    ((db.map upd).find? (fun s => s.session_id == sid), db.map upd)

/-- Erase the last-activity field; two stores equal under this map
differ at most in last-activity values. -/
def eraseActivity {β : Type} (db : List (OAuthSession β)) : List (OAuthSession β) :=
  db.map (fun r => { r with last_activity := 0 })

/-- C4: `validate_session` returns false (without raising) for an
unknown session id; returns false when the stored expiry — a naive
value being treated as UTC — is `<=` the current time; and otherwise
returns true, its only side effect being to set the session's
last-activity to the current time (the store is unchanged up to
last-activity values, and untouched on the false paths). -/
theorem C4_validate_session {β : Type} (db : List (OAuthSession β))
    (sid : String) (now : Int) :
    (get_session db sid = none → validate_session db sid now = (false, db)) ∧
    (∀ s, get_session db sid = some s → (tzNormalize s.expires_at).val ≤ now →
      validate_session db sid now = (false, db)) ∧
    (∀ s, get_session db sid = some s → now < (tzNormalize s.expires_at).val →
      (validate_session db sid now).1 = true ∧
      (validate_session db sid now).2 =
        db.map (fun r => if r.session_id == sid
          then { r with last_activity := now } else r) ∧
      eraseActivity (validate_session db sid now).2 = eraseActivity db) := by
  refine ⟨?_, ?_, ?_⟩
  · intro h; simp [validate_session, h]
  · intro s hs hle; simp [validate_session, hs, hle]
  · intro s hs hlt
    have hnle : ¬ (tzNormalize s.expires_at).val ≤ now := not_le.mpr hlt
    refine ⟨by simp [validate_session, hs, hnle], by simp [validate_session, hs, hnle], ?_⟩
    simp only [validate_session, hs, hnle, if_false, eraseActivity, List.map_map]
    apply List.map_congr_left
    intro r _
    by_cases hr : r.session_id = sid <;> simp [hr]

/-- Witness for C4: a store with one live session "sid" (aware expiry
at 100, checked at 50) validates to true and only last-activity moves;
with the clock at 100 it validates to false. -/
theorem C4_validate_session_witness :
    let s : OAuthSession String :=
      { session_id := "sid", user_id := "u", access_token := "ea",
        refresh_token := "er", expires_at := { val := 100, aware := true },
        created_at := 0, last_activity := 0, user_agent := none }
    (validate_session [s] "sid" 50).1 = true ∧
    validate_session [s] "sid" 100 = (false, [s]) ∧
    validate_session [s] "nope" 50 = (false, [s]) := by
  intro s
  refine ⟨((C4_validate_session [s] "sid" 50).2.2 s (by decide) (by decide)).1,
    (C4_validate_session [s] "sid" 100).2.1 s (by decide) (by decide),
    (C4_validate_session [s] "nope" 50).1 (by decide)⟩

/-- Looking a session up in a pointwise-rewritten store: the rewrite
keeps every primary key, so lookup commutes with it. -/
theorem get_session_map {β : Type} (db : List (OAuthSession β)) (sid : String)
    (f : OAuthSession β → OAuthSession β)
    (hf : ∀ r, (f r).session_id = r.session_id) :
    get_session (db.map f) sid = (get_session db sid).map f := by
  unfold get_session
  rw [List.find?_map]
  have hp : ((fun s : OAuthSession β => s.session_id == sid) ∘ f) =
      (fun s : OAuthSession β => s.session_id == sid) := by
    funext r
    simp [Function.comp, hf r]
  rw [hp]

/-- A successful session lookup returns a row carrying the looked-up
primary key. -/
theorem get_session_beq {β : Type} {db : List (OAuthSession β)} {sid : String}
    {s : OAuthSession β} (h : get_session db sid = some s) :
    (s.session_id == sid) = true := by
  unfold get_session at h
  have := List.find?_some h
  simpa using this

/-- Helper: the present-session case of `refresh_session`, written out
as the returned row and the pointwise-updated store. -/
theorem refresh_session_present {β : Type} (C : TokenCipher β)
    (db0 : List (OAuthSession β)) (sid a : String) (e : PyDateTime) (n : Int)
    (s0 : OAuthSession β) (hs : get_session db0 sid = some s0) :
    refresh_session C db0 sid a e n =
      (some { s0 with access_token := C.enc a, expires_at := e, last_activity := n },
       db0.map (fun r => if r.session_id == sid
         then { r with access_token := C.enc a, expires_at := e, last_activity := n }
         else r)) := by
  have hkey : (s0.session_id == sid) = true := get_session_beq hs
  have hmap := get_session_map db0 sid
    (fun r => if r.session_id == sid
      then { r with access_token := C.enc a, expires_at := e, last_activity := n }
      else r)
    (by intro r; by_cases h : r.session_id == sid <;> simp [h])
  simp only [refresh_session, hs]
  unfold get_session at hmap hs
  refine Prod.ext ?_ rfl
  show List.find? _ (List.map _ db0) = _
  rw [hmap, hs, Option.map_some', if_pos hkey]

/-- Helper: after a successful refresh the session looked up again is
the updated row. -/
theorem get_session_after_refresh {β : Type} (C : TokenCipher β)
    (db0 : List (OAuthSession β)) (sid a : String) (e : PyDateTime) (n : Int)
    (s0 : OAuthSession β) (hs : get_session db0 sid = some s0) :
    get_session (refresh_session C db0 sid a e n).2 sid =
      some { s0 with access_token := C.enc a, expires_at := e, last_activity := n } := by
  have hkey : (s0.session_id == sid) = true := get_session_beq hs
  simp only [refresh_session_present C db0 sid a e n s0 hs]
  rw [get_session_map db0 sid _
    (by intro r; by_cases h : r.session_id == sid <;> simp [h])]
  rw [hs, Option.map_some', if_pos hkey]

/-- C5: `refresh_session` returns `None` and writes nothing when the
session is absent; otherwise it replaces the stored encrypted access
token and the expiry together, updates last-activity, and leaves every
other field — in particular the stored encrypted refresh token — and
every other row unchanged; after two sequential refreshes only the
second call's access token and expiry are retrievable and the refresh
token is unchanged across both. -/
theorem C5_refresh_session {β : Type} (C : TokenCipher β)
    (db : List (OAuthSession β)) (sid a1 a2 : String)
    (e1 e2 : PyDateTime) (n1 n2 : Int)
    (hC : ∀ x, C.dec (C.enc x) = x) :
    (get_session db sid = none → refresh_session C db sid a1 e1 n1 = (none, db)) ∧
    (∀ s0, get_session db sid = some s0 →
      refresh_session C db sid a1 e1 n1 =
        (some { s0 with access_token := C.enc a1, expires_at := e1, last_activity := n1 },
         db.map (fun r => if r.session_id == sid
           then { r with access_token := C.enc a1, expires_at := e1, last_activity := n1 }
           else r))) ∧
    (∀ s0, get_session db sid = some s0 →
      get_decrypted_access_token C
        (refresh_session C (refresh_session C db sid a1 e1 n1).2 sid a2 e2 n2).2 sid
        = some a2 ∧
      (get_session
        (refresh_session C (refresh_session C db sid a1 e1 n1).2 sid a2 e2 n2).2 sid).map
          (fun s => s.expires_at) = some e2 ∧
      (get_session
        (refresh_session C (refresh_session C db sid a1 e1 n1).2 sid a2 e2 n2).2 sid).map
          (fun s => s.refresh_token) = some s0.refresh_token ∧
      get_decrypted_refresh_token C
        (refresh_session C (refresh_session C db sid a1 e1 n1).2 sid a2 e2 n2).2 sid
        = some (C.dec s0.refresh_token)) := by
  refine ⟨?_, fun s0 hs => refresh_session_present C db sid a1 e1 n1 s0 hs, ?_⟩
  · intro h; unfold refresh_session; rw [h]
  · intro s0 hs
    have hs1 := get_session_after_refresh C db sid a1 e1 n1 s0 hs
    have hs2 := get_session_after_refresh C (refresh_session C db sid a1 e1 n1).2
      sid a2 e2 n2 _ hs1
    refine ⟨?_, ?_, ?_, ?_⟩ <;>
      simp [get_decrypted_access_token, get_decrypted_refresh_token, hs2, hC]

/-- Witness for C5 with the identity cipher on `String`: one session,
two sequential refreshes; afterwards the access token is the second
call's and the refresh token is the original. -/
theorem C5_refresh_session_witness :
    let C : TokenCipher String := { enc := fun s => s, dec := fun s => s }
    let s : OAuthSession String :=
      { session_id := "sid", user_id := "u", access_token := "a0",
        refresh_token := "r0", expires_at := { val := 10, aware := true },
        created_at := 0, last_activity := 0, user_agent := none }
    get_decrypted_access_token C
      (refresh_session C (refresh_session C [s] "sid" "t1"
        { val := 20, aware := true } 1).2 "sid" "t2"
        { val := 30, aware := true } 2).2 "sid" = some "t2" ∧
    get_decrypted_refresh_token C
      (refresh_session C (refresh_session C [s] "sid" "t1"
        { val := 20, aware := true } 1).2 "sid" "t2"
        { val := 30, aware := true } 2).2 "sid" = some "r0" := by
  intro C s
  have h := (C5_refresh_session C [s] "sid" "t1" "t2"
    { val := 20, aware := true } { val := 30, aware := true } 1 2
    (fun x => rfl)).2.2 s (by decide)
  exact ⟨h.1, h.2.2.2⟩

/-! ## Dynamic clients (src/app/db/models.py class DynamicClient,
src/app/services/client_service.py) -/

/-- Python `s.encode("utf-8")` for the strings at hand (the URL-safe
base64 alphabet of generated secrets is ASCII, where UTF-8 bytes are
the code points). -/
def str_encode (s : String) : List Nat :=
  s.toList.map Char.toNat

/-- Python `b.decode("utf-8")` on the same byte strings. -/
def str_decode (l : List Nat) : String :=
  String.mk (l.map Char.ofNat)

structure DynamicClient where
  client_id : String
  client_secret : List Nat
  platform : String
  redirect_uris : List String
  created_at : Int
  expires_at : PyDateTime
  last_used : Option Int
  deriving Repr, DecidableEq

/-- `register_client` (client_service.py lines 38-85).  The generated
`client_id` and plaintext `client_secret` come from the `secrets`
module and are taken as parameters.  The stored record's secret field
is `client_secret.encode('utf-8')` — the plaintext byte encoding —
per the source comment "encode secret to bytes for LargeBinary field".
Returns the created row, the table after commit, and the plaintext
secret handed back to the caller. -/
def register_client (db : List DynamicClient) (client_id client_secret : String)
    (platform : String) (redirect_uris : List String) (expires_at : PyDateTime)
    (created_at : Int) : DynamicClient × List DynamicClient × String :=
  let c : DynamicClient :=
    { client_id := client_id, client_secret := str_encode client_secret,
      platform := platform, redirect_uris := redirect_uris,
      created_at := created_at, expires_at := expires_at, last_used := none }
  (c, db ++ [c], client_secret)

/-- `get_client` (client_service.py lines 88-101). -/
def get_client (db : List DynamicClient) (cid : String) : Option DynamicClient :=
  db.find? (fun c => c.client_id == cid)

/-- `validate_client` (client_service.py lines 104-141): existence
check, then `client.client_secret.decode('utf-8') != client_secret`
(byte decode, not decryption), then the expiry check with naive-as-UTC
normalization, then the last-used update. -/
def validate_client (db : List DynamicClient) (cid secret : String)
    (now : Int) : Bool × List DynamicClient :=
  match get_client db cid with
  | none => (false, db)
  | some c =>
    if str_decode c.client_secret ≠ secret then (false, db)
    else if (tzNormalize c.expires_at).val ≤ now then (false, db)
    else
      (true, db.map (fun r => if r.client_id == cid
        then { r with last_used := some now } else r))

/-- C6 (refuted; evaluation of the code): the client row persisted by
`register_client` carries exactly the plaintext secret's byte
encoding, not an encryption of it, and `validate_client` accepts the
credentials by decoding those stored bytes — no cipher is ever
invoked on the dynamic-client secret. -/
theorem C6_stored_secret_is_plaintext_encoding (db : List DynamicClient)
    (cid secret platform : String) (uris : List String)
    (e : PyDateTime) (t : Int) :
    (register_client db cid secret platform uris e t).1.client_secret =
      str_encode secret ∧
    (register_client db cid secret platform uris e t).1 ∈
      (register_client db cid secret platform uris e t).2.1 := by
  refine ⟨rfl, ?_⟩
  simp [register_client]

/-! ## OAuth refresh endpoint (src/app/api/oauth.py lines 208-283) -/

inductive RefreshOutcome where
  | sessionNotFound
  | invalidRefreshToken
  | providerError
  | ok (session_id access_token refresh_token : String) (expires_in : Int)
  deriving Repr, DecidableEq

/-- `expires_in = int((expiry - now).total_seconds())` after normalizing
a naive expiry to UTC, with timestamps in whole seconds. -/
def expiresIn (expiry : PyDateTime) (now : Int) : Int :=
  (tzNormalize expiry).val - now

/-- `oauth_refresh` (oauth.py lines 208-283): looks up the decrypted
stored refresh token (`if not stored_refresh_token` catches both a
missing session and an empty decrypted token, returning 404), rejects a
mismatch with 401, exchanges the stored token with the provider
(modelled by the oracle `provider`; a failure is the 400 branch), then
updates the session through `refresh_session` and answers with the new
access token and the unchanged stored refresh token. -/
def oauth_refresh {β : Type} (C : TokenCipher β) (db : List (OAuthSession β))
    (sid provided : String) (provider : String → Option (String × PyDateTime))
    (now : Int) : RefreshOutcome × List (OAuthSession β) :=
  match get_decrypted_refresh_token C db sid with
  | none => (.sessionNotFound, db)
  | some stored =>
    if stored = "" then (.sessionNotFound, db)
    else if stored ≠ provided then (.invalidRefreshToken, db)
    else
      match provider stored with
      | none => (.providerError, db)
      | some (newTok, newExp) =>
        match refresh_session C db sid newTok newExp now with
        | (none, db1) => (.sessionNotFound, db1)
        | (some s, db1) => (.ok s.session_id newTok stored (expiresIn newExp now), db1)

/-- C9: `oauth_refresh` fails when the session is absent, fails with
the invalid-token rejection when the supplied refresh token differs
from the decrypted stored one, and on a match with a successful
provider exchange returns the new access token together with the
unchanged stored refresh token, which also stays unchanged in the
store. -/
theorem C9_oauth_refresh {β : Type} (C : TokenCipher β)
    (db : List (OAuthSession β)) (sid provided : String)
    (provider : String → Option (String × PyDateTime)) (now : Int) :
    (get_session db sid = none →
      oauth_refresh C db sid provided provider now = (.sessionNotFound, db)) ∧
    (∀ s0, get_session db sid = some s0 →
      C.dec s0.refresh_token ≠ provided → C.dec s0.refresh_token ≠ "" →
      oauth_refresh C db sid provided provider now = (.invalidRefreshToken, db)) ∧
    (∀ s0 newTok newExp, get_session db sid = some s0 →
      C.dec s0.refresh_token = provided → provided ≠ "" →
      provider provided = some (newTok, newExp) →
      oauth_refresh C db sid provided provider now =
        (.ok sid newTok provided (expiresIn newExp now),
         (refresh_session C db sid newTok newExp now).2) ∧
      (get_session (oauth_refresh C db sid provided provider now).2 sid).map
        (fun s => s.refresh_token) = some s0.refresh_token ∧
      get_decrypted_refresh_token C
        (oauth_refresh C db sid provided provider now).2 sid =
        some (C.dec s0.refresh_token)) := by
  refine ⟨?_, ?_, ?_⟩
  · intro h
    simp [oauth_refresh, get_decrypted_refresh_token, h]
  · intro s0 hs hne hempty
    simp [oauth_refresh, get_decrypted_refresh_token, hs, hne, hempty]
  · intro s0 newTok newExp hs hmatch hne hprov
    have hkey : s0.session_id = sid := by simpa using get_session_beq hs
    have hr := refresh_session_present C db sid newTok newExp now s0 hs
    have hafter := get_session_after_refresh C db sid newTok newExp now s0 hs
    have hout : oauth_refresh C db sid provided provider now =
        (.ok sid newTok provided (expiresIn newExp now),
         (refresh_session C db sid newTok newExp now).2) := by
      simp only [oauth_refresh, get_decrypted_refresh_token, hs, Option.map_some',
        hmatch, hprov]
      rw [if_neg (by simpa using hne), if_neg (by simp)]
      simp only [hr, hkey]
    refine ⟨hout, ?_, ?_⟩ <;>
      simp [hout, hr.symm, hafter, get_decrypted_refresh_token]

/-- Witness for C9 with the identity cipher: mismatch is rejected, a
matching token refreshes and the stored refresh token survives. -/
theorem C9_oauth_refresh_witness :
    let C : TokenCipher String := { enc := fun s => s, dec := fun s => s }
    let s : OAuthSession String :=
      { session_id := "sid", user_id := "u", access_token := "a0",
        refresh_token := "r0", expires_at := { val := 10, aware := true },
        created_at := 0, last_activity := 0, user_agent := none }
    let provider : String → Option (String × PyDateTime) :=
      fun _ => some ("a1", { val := 60, aware := true })
    oauth_refresh C [s] "sid" "wrong" provider 0 =
      (RefreshOutcome.invalidRefreshToken, [s]) ∧
    (oauth_refresh C [s] "sid" "r0" provider 0).1 =
      RefreshOutcome.ok "sid" "a1" "r0" 60 ∧
    get_decrypted_refresh_token C (oauth_refresh C [s] "sid" "r0" provider 0).2 "sid" =
      some "r0" := by
  intro C s provider
  have h := C9_oauth_refresh C [s] "sid" "r0" provider 0
  have hm := (C9_oauth_refresh C [s] "sid" "wrong" provider 0).2.1 s
    (by decide) (by decide) (by decide)
  have hok := h.2.2 s "a1" { val := 60, aware := true }
    (by decide) rfl (by decide) rfl
  exact ⟨hm, by rw [hok.1]; rfl, hok.2.2⟩

/-! ## MCP tool dispatch (src/app/main.py lines 199-280,
src/app/mcp/tools.py, src/app/mcp/handlers.py) -/

/-- The advertised tool names: `TOOLS` (tools.py lines 14-243), as
served by `/mcp/tools/list`. -/
def toolNames : List String :=
  ["task_create", "task_list", "task_get", "task_update", "task_complete",
   "task_delete", "task_search", "task_stats", "task_schedule"]

/-- The keys of `TOOL_HANDLERS` (handlers.py lines 436-445). -/
def toolHandlerNames : List String :=
  ["task_create", "task_list", "task_get", "task_update", "task_complete",
   "task_delete", "task_search", "task_stats"]

inductive DispatchResult where
  | missingName
  | toolNotFound
  | handled (tool : String) (tokensInjected : Bool)
  deriving Repr, DecidableEq

/-- The dispatch skeleton of `mcp_tools_call` (main.py lines 199-280):
absent or empty tool name is the 400 branch; a name outside
`TOOL_HANDLERS` is the 404 branch, raised before the token-injection
step; otherwise the handler runs, with the decrypted OAuth tokens
injected into the parameters exactly when the name is
"task_schedule". -/
def mcp_tools_call (name : Option String) : DispatchResult :=
  match name with
  | none => .missingName
  | some n =>
    if n = "" then .missingName
    else if toolHandlerNames.contains n then .handled n (n == "task_schedule")
    else .toolNotFound

/-- C8 (evaluation of the code): "task_schedule" is advertised in the
tool registry, yet it has no entry in `TOOL_HANDLERS`, so a tool call
named "task_schedule" hits the 404 branch of the dispatch before the
token-injection step can run; every name that does dispatch is
handled without token injection. -/
theorem C8_task_schedule_not_dispatchable :
    "task_schedule" ∈ toolNames ∧
    "task_schedule" ∉ toolHandlerNames ∧
    mcp_tools_call (some "task_schedule") = .toolNotFound ∧
    (∀ n ∈ toolHandlerNames,
      mcp_tools_call (some n) = .handled n false) := by
  refine ⟨by decide, by decide, by decide, ?_⟩
  decide

/-! ## Task statistics (src/app/services/task_service.py lines 313-379) -/

/-- Python `round` on an exact rational: round half to even. -/
def pyRound (q : ℚ) : ℤ :=
  let f := ⌊q⌋
  let r := q - f
  if r < 1 / 2 then f
  else if 1 / 2 < r then f + 1
  else if f % 2 = 0 then f else f + 1

/-- `round(x, 2)`. -/
def round2 (q : ℚ) : ℚ :=
  (pyRound (q * 100) : ℚ) / 100

/-- The dict key used in the `by_project` response: the comprehension
`{project or "None": count ...}` maps both a NULL project and an empty
project name to the key "None". -/
def projKey : Option String → String
  | none => "None"
  | some s => if s = "" then "None" else s

/-- SQL `GROUP BY k` with `count(*)`: each distinct key with its
multiplicity. -/
def groupCounts {α : Type} [DecidableEq α] (l : List α) : List (α × Nat) :=
  l.dedup.map (fun k => (k, l.count k))

/-- Python dict insertion `d[k] = v` on an association list: overwrite
if the key is present, append otherwise. -/
def dictInsert {κ : Type} [DecidableEq κ] (d : List (κ × Nat)) (k : κ)
    (v : Nat) : List (κ × Nat) :=
  if k ∈ d.map Prod.fst
  then d.map (fun kv => if kv.1 = k then (k, v) else kv)
  else d ++ [(k, v)]

/-- A dict comprehension `{f k: v for k, v in g}`. -/
def dictRelabel {α κ : Type} [DecidableEq κ] (f : α → κ)
    (g : List (α × Nat)) : List (κ × Nat) :=
  g.foldl (fun d kv => dictInsert d (f kv.1) kv.2) []

/-- Sum of the values of an association list. -/
def sumValues {κ : Type} (d : List (κ × Nat)) : Nat :=
  (d.map Prod.snd).sum

structure TaskStats where
  total_tasks : Nat
  completed_tasks : Nat
  incomplete_tasks : Nat
  completion_rate : ℚ
  by_project : List (String × Nat)
  by_priority : List (String × Nat)
  deriving Repr, DecidableEq

/-- `TaskService.get_task_stats` (task_service.py lines 313-379).

`if project:` applies the project filter only to the total/completed
counts (and through them to the completion rate), and only when the
filter string is truthy (non-empty).  The two GROUP BY breakdowns are
separate queries filtered by `Task.user_id == user_id, Task.completed
== False` only — the project filter is not applied to them.  The
`by_project` dict renames group keys by `project or "None"`; the
`by_priority` dict stringifies the priority. -/
def get_task_stats (db : List Task) (user_id : String)
    (project : Option String) : TaskStats :=
  let userTasks := db.filter (fun t => t.user_id == user_id)
  let base := match project with
    | some p => if p = "" then userTasks
                else userTasks.filter (fun t => t.project == some p)
    | none => userTasks
  let total := base.length
  let completed := (base.filter (fun t => t.completed)).length
  let userIncomplete := db.filter (fun t => t.user_id == user_id && !t.completed)
  { total_tasks := total
    completed_tasks := completed
    incomplete_tasks := total - completed
    completion_rate :=
      round2 (if 0 < total then (completed : ℚ) / (total : ℚ) * 100 else 0)
    by_project :=
      dictRelabel projKey (groupCounts (userIncomplete.map (fun t => t.project)))
    by_priority :=
      dictRelabel toString (groupCounts (userIncomplete.map (fun t => t.priority))) }

/-- Dict insertion with a fresh key appends. -/
theorem dictInsert_fresh {κ : Type} [DecidableEq κ] (d : List (κ × Nat))
    (k : κ) (v : Nat) (h : k ∉ d.map Prod.fst) :
    dictInsert d k v = d ++ [(k, v)] := by
  simp [dictInsert, h]

/-- A dict comprehension whose relabelled keys are pairwise distinct is
a plain map over the key-value pairs. -/
theorem dictRelabel_eq_map {α κ : Type} [DecidableEq κ] (f : α → κ) :
    ∀ (g : List (α × Nat)) (d : List (κ × Nat)),
    (g.map (fun kv => f kv.1)).Nodup →
    (∀ kv ∈ g, f kv.1 ∉ d.map Prod.fst) →
    g.foldl (fun d kv => dictInsert d (f kv.1) kv.2) d =
      d ++ g.map (fun kv => (f kv.1, kv.2)) := by
  intro g
  induction g with
  | nil => intro d _ _; simp
  | cons kv g ih =>
    intro d hnd hfresh
    have hcons : (f kv.1 :: g.map (fun kv => f kv.1)).Nodup := by simpa using hnd
    have hhead : f kv.1 ∉ g.map (fun kv => f kv.1) := (List.nodup_cons.mp hcons).1
    have htail : (g.map (fun kv => f kv.1)).Nodup := (List.nodup_cons.mp hcons).2
    have h1 : f kv.1 ∉ d.map Prod.fst := hfresh kv (by simp)
    have hstep : dictInsert d (f kv.1) kv.2 = d ++ [(f kv.1, kv.2)] :=
      dictInsert_fresh d (f kv.1) kv.2 h1
    simp only [List.foldl_cons, hstep]
    rw [ih (d ++ [(f kv.1, kv.2)]) htail ?_]
    · simp
    · intro kv2 h2
      simp only [List.map_append, List.mem_append]
      push_neg
      refine ⟨hfresh kv2 (by simp [h2]), ?_⟩
      have hne : f kv2.1 ≠ f kv.1 := by
        intro hcontra
        exact hhead (hcontra ▸ List.mem_map_of_mem (fun kv => f kv.1) h2)
      simp [hne]

/-- The values of a GROUP BY result sum to the number of grouped rows. -/
theorem sumValues_groupCounts {α : Type} [DecidableEq α] (l : List α) :
    sumValues (groupCounts l) = l.length := by
  simp only [sumValues, groupCounts, List.map_map]
  have := List.sum_map_count_dedup_eq_length l
  simpa [Function.comp] using this

/-- When the relabelled keys stay distinct, relabelling preserves the
sum of the values. -/
theorem sumValues_dictRelabel {α κ : Type} [DecidableEq κ] (f : α → κ)
    (g : List (α × Nat)) (h : (g.map (fun kv => f kv.1)).Nodup) :
    sumValues (dictRelabel f g) = sumValues g := by
  unfold dictRelabel
  rw [dictRelabel_eq_map f g [] h (by simp)]
  have hsnd : (Prod.snd ∘ fun kv : α × Nat => (f kv.1, kv.2)) = Prod.snd := by
    funext kv; rfl
  simp [sumValues, List.map_map, hsnd]

/-- `pyRound` at a value strictly below the rounding midpoint. -/
theorem pyRound_of_lt_half (q : ℚ) (f : ℤ) (hf : ⌊q⌋ = f)
    (hlt : q - f < 1 / 2) : pyRound q = f := by
  simp only [pyRound]
  rw [hf, if_pos hlt]

/-- Relabelled GROUP BY: when the relabelled keys stay distinct the dict
values sum to the number of grouped rows. -/
theorem sumValues_relabel_group {α κ : Type} [DecidableEq α] [DecidableEq κ]
    (f : α → κ) (l : List α) (h : (l.dedup.map f).Nodup) :
    sumValues (dictRelabel f (groupCounts l)) = l.length := by
  rw [sumValues_dictRelabel]
  · exact sumValues_groupCounts l
  · simpa [groupCounts, List.map_map, Function.comp] using h

/-- Counting incomplete rows of a user equals the user's row count
minus the user's completed row count. -/
theorem incomplete_count (db : List Task) (uid : String) :
    (db.filter (fun t => t.user_id == uid && !t.completed)).length =
    (db.filter (fun t => t.user_id == uid)).length -
      ((db.filter (fun t => t.user_id == uid)).filter (fun t => t.completed)).length := by
  induction db with
  | nil => rfl
  | cons t ts ih =>
    have hle : ((ts.filter (fun t => t.user_id == uid)).filter
        (fun t => t.completed)).length ≤
        (ts.filter (fun t => t.user_id == uid)).length := List.length_filter_le _ _
    by_cases hu : (t.user_id == uid) = true
    · by_cases hc : t.completed = true
      · simp only [List.filter_cons, hu, hc, Bool.not_true, Bool.and_false,
          if_true, if_false, Bool.false_eq_true, List.length_cons]
        omega
      · simp only [List.filter_cons, hu, hc, Bool.not_false, Bool.and_true,
          if_true, if_false, Bool.false_eq_true, List.length_cons]
        omega
    · simp only [List.filter_cons, hu, Bool.false_and, if_false,
        Bool.false_eq_true]
      exact ih

/-- A concrete task row, used by witnesses and counterexamples. -/
def mkTask (id : Nat) (uid : String) (project : Option String)
    (priority : Nat) (completed : Bool) : Task :=
  { id := id, user_id := uid, title := "t", project := project,
    priority := priority, energy := "medium", time_estimate := "1hr",
    notes := none, due_date := none, completed := completed,
    completed_at := none, created_at := "c", updated_at := "c" }

/-- Counterexample to C7 as stated: with a project filter, the reported
incomplete count is restricted to the project but the breakdown is not.
User "u" has one incomplete task in project "a" and one in project "b";
stats filtered to "a" report one incomplete task while the by-project
breakdown values sum to two. -/
theorem C7_counterexample :
    (get_task_stats [mkTask 1 "u" (some "a") 3 false,
      mkTask 2 "u" (some "b") 3 false] "u" (some "a")).incomplete_tasks = 1 ∧
    sumValues (get_task_stats [mkTask 1 "u" (some "a") 3 false,
      mkTask 2 "u" (some "b") 3 false] "u" (some "a")).by_project = 2 := by
  constructor <;> decide

/-- C7 (amended to the unfiltered call, with the dict-key caveat):
without a project filter, `get_task_stats` reports a completion rate
equal to completed/total*100 rounded to two decimals (0 when there are
no tasks) — exactly 33.33 for 3 tasks with 1 completed — and the
by-project and by-priority breakdowns count only incomplete tasks, each
summing to the reported incomplete count PROVIDED the breakdown dict
keys do not collide: `hproj` says no two distinct project groups are
renamed to the same key by the comprehension `{project or "None":
count}` (a NULL-project group collides with an empty-string or
"None"-named project group), and `hprio` says no two distinct
priorities print alike (true of integers, so it excludes nothing
reachable).  When project keys do collide the comprehension keeps only
the last group's count and the by-project sum falls short of the
reported incomplete count — the final conjunct exhibits such a store. -/
theorem C7_stats_unfiltered (db : List Task) (uid : String)
    (hproj : (((db.filter (fun t => t.user_id == uid && !t.completed)).map
      (fun t => t.project)).dedup.map projKey).Nodup)
    (hprio : (((db.filter (fun t => t.user_id == uid && !t.completed)).map
      (fun t => t.priority)).dedup.map toString).Nodup) :
    (get_task_stats db uid none).completion_rate =
      round2 (if 0 < (get_task_stats db uid none).total_tasks
        then ((get_task_stats db uid none).completed_tasks : ℚ) /
          ((get_task_stats db uid none).total_tasks : ℚ) * 100 else 0) ∧
    ((get_task_stats db uid none).total_tasks = 3 →
      (get_task_stats db uid none).completed_tasks = 1 →
      (get_task_stats db uid none).completion_rate = 33.33) ∧
    sumValues (get_task_stats db uid none).by_project =
      (get_task_stats db uid none).incomplete_tasks ∧
    sumValues (get_task_stats db uid none).by_priority =
      (get_task_stats db uid none).incomplete_tasks ∧
    (∃ db0 uid0, sumValues (get_task_stats db0 uid0 none).by_project <
      (get_task_stats db0 uid0 none).incomplete_tasks) := by
  have hsumproj : sumValues (get_task_stats db uid none).by_project =
      (db.filter (fun t => t.user_id == uid && !t.completed)).length := by
    show sumValues (dictRelabel projKey (groupCounts _)) = _
    rw [sumValues_relabel_group projKey _ hproj, List.length_map]
  have hsumprio : sumValues (get_task_stats db uid none).by_priority =
      (db.filter (fun t => t.user_id == uid && !t.completed)).length := by
    show sumValues (dictRelabel toString (groupCounts _)) = _
    rw [sumValues_relabel_group toString _ hprio, List.length_map]
  have hinc : (get_task_stats db uid none).incomplete_tasks =
      (db.filter (fun t => t.user_id == uid && !t.completed)).length :=
    (incomplete_count db uid).symm
  refine ⟨rfl, ?_, ?_, ?_, ?_⟩
  · intro h3 h1
    have hr : (get_task_stats db uid none).completion_rate =
        round2 (if 0 < (get_task_stats db uid none).total_tasks
          then ((get_task_stats db uid none).completed_tasks : ℚ) /
            ((get_task_stats db uid none).total_tasks : ℚ) * 100 else 0) := rfl
    rw [hr, h3, h1]
    rw [if_pos (by norm_num)]
    unfold round2
    have harg : (((1 : Nat) : ℚ) / ((3 : Nat) : ℚ) * 100) * 100 = 10000 / 3 := by
      norm_num
    rw [harg, pyRound_of_lt_half (10000 / 3) 3333 ?_ ?_]
    · norm_num
    · rw [Int.floor_eq_iff]
      norm_num
    · norm_num
  · rw [hsumproj, hinc]
  · rw [hsumprio, hinc]
  · refine ⟨[mkTask 8 "v" none 3 false, mkTask 9 "v" (some "") 3 false], "v", ?_⟩
    decide

/-- Witness for C7: three tasks, one completed, no filter: the rate is
exactly 33.33 and the by-project values sum to the incomplete count. -/
theorem C7_stats_unfiltered_witness :
    (get_task_stats [mkTask 1 "u" (some "a") 3 true,
      mkTask 2 "u" (some "a") 2 false, mkTask 3 "u" none 5 false]
      "u" none).completion_rate = 33.33 ∧
    sumValues (get_task_stats [mkTask 1 "u" (some "a") 3 true,
      mkTask 2 "u" (some "a") 2 false, mkTask 3 "u" none 5 false]
      "u" none).by_project =
    (get_task_stats [mkTask 1 "u" (some "a") 3 true,
      mkTask 2 "u" (some "a") 2 false, mkTask 3 "u" none 5 false]
      "u" none).incomplete_tasks := by
  have h := C7_stats_unfiltered
    [mkTask 1 "u" (some "a") 3 true, mkTask 2 "u" (some "a") 2 false,
     mkTask 3 "u" none 5 false] "u" (by decide) (by decide)
  exact ⟨h.2.1 (by decide) (by decide), h.2.2.1⟩

/-- C10: with a (truthy) project filter, the total and completed counts
are restricted to the project's tasks, but the by-project and
by-priority breakdowns are identical to the unfiltered call's — they
are computed over the user's incomplete tasks in all projects, so their
values sum to the user's overall incomplete count, which can exceed the
reported (project-restricted) incomplete count. -/
theorem C10_breakdowns_ignore_filter (db : List Task) (uid p : String)
    (hp : p ≠ "")
    (hproj : (((db.filter (fun t => t.user_id == uid && !t.completed)).map
      (fun t => t.project)).dedup.map projKey).Nodup) :
    (get_task_stats db uid (some p)).total_tasks =
      ((db.filter (fun t => t.user_id == uid)).filter
        (fun t => t.project == some p)).length ∧
    (get_task_stats db uid (some p)).completed_tasks =
      (((db.filter (fun t => t.user_id == uid)).filter
        (fun t => t.project == some p)).filter (fun t => t.completed)).length ∧
    (get_task_stats db uid (some p)).by_project =
      (get_task_stats db uid none).by_project ∧
    (get_task_stats db uid (some p)).by_priority =
      (get_task_stats db uid none).by_priority ∧
    sumValues (get_task_stats db uid (some p)).by_project =
      (db.filter (fun t => t.user_id == uid && !t.completed)).length ∧
    (∃ db0 uid0 p0, (get_task_stats db0 uid0 (some p0)).incomplete_tasks <
      sumValues (get_task_stats db0 uid0 (some p0)).by_project) := by
  refine ⟨?_, ?_, rfl, rfl, ?_, ?_⟩
  · show (if p = "" then db.filter (fun t => t.user_id == uid)
      else (db.filter (fun t => t.user_id == uid)).filter
        (fun t => t.project == some p)).length = _
    rw [if_neg hp]
  · show ((if p = "" then db.filter (fun t => t.user_id == uid)
      else (db.filter (fun t => t.user_id == uid)).filter
        (fun t => t.project == some p)).filter (fun t => t.completed)).length = _
    rw [if_neg hp]
  · show sumValues (dictRelabel projKey (groupCounts _)) = _
    rw [sumValues_relabel_group projKey _ hproj, List.length_map]
  · refine ⟨[mkTask 1 "w" (some "a") 3 false, mkTask 2 "w" (some "b") 3 false],
      "w", "a", ?_⟩
    decide

/-- Witness for C10: the counterexample store of two incomplete tasks in
different projects, filtered to "a". -/
theorem C10_breakdowns_ignore_filter_witness :
    (get_task_stats [mkTask 4 "u" (some "a") 3 false,
      mkTask 5 "u" (some "b") 2 false] "u" (some "a")).by_project =
    (get_task_stats [mkTask 4 "u" (some "a") 3 false,
      mkTask 5 "u" (some "b") 2 false] "u" none).by_project ∧
    sumValues (get_task_stats [mkTask 4 "u" (some "a") 3 false,
      mkTask 5 "u" (some "b") 2 false] "u" (some "a")).by_project = 2 := by
  have h := C10_breakdowns_ignore_filter
    [mkTask 4 "u" (some "a") 3 false, mkTask 5 "u" (some "b") 2 false]
    "u" "a" (by decide) (by decide)
  exact ⟨h.2.2.1, by rw [h.2.2.2.2.1]; rfl⟩

/-! ## Fernet token model (for src/app/auth/encryption.py)

`encrypt_token`/`decrypt_token` wrap the Fernet cipher of the external
`cryptography` package.  The Fernet token format (public spec) is
`base64url( 0x80 || timestamp(8) || iv(16) || AES-CBC(PKCS7(m)) ||
HMAC(32) )`.  The AES-CBC block cipher core and the HMAC are external
cryptographic primitives, modelled as an abstract `CoreCipher`
satisfying the inversion, length-preservation and byte-range laws
stated as hypotheses of the theorem; padding, the base64url transport
encoding and the token layout are modelled concretely. -/

/-- One character of the URL-safe base64 alphabet, as its ASCII code. -/
def b64char (i : Nat) : Nat :=
  if i < 26 then 65 + i
  else if i < 52 then 97 + (i - 26)
  else if i < 62 then 48 + (i - 52)
  else if i = 62 then 45
  else 95

/-- Inverse of the URL-safe base64 alphabet. -/
def b64val (c : Nat) : Option Nat :=
  if 65 ≤ c ∧ c ≤ 90 then some (c - 65)
  else if 97 ≤ c ∧ c ≤ 122 then some (26 + (c - 97))
  else if 48 ≤ c ∧ c ≤ 57 then some (52 + (c - 48))
  else if c = 45 then some 62
  else if c = 95 then some 63
  else none

theorem b64val_b64char (i : Nat) (h : i < 64) : b64val (b64char i) = some i := by
  unfold b64char b64val
  split_ifs <;> simp_all <;> omega

theorem b64char_ne_61 (i : Nat) : b64char i ≠ 61 := by
  unfold b64char
  split_ifs <;> omega

/-- `base64.urlsafe_b64encode`: bytes to ASCII codes, with `=` (61)
padding. -/
def b64encode : List Nat → List Nat
  | [] => []
  | [a] => [b64char (a / 4), b64char (a % 4 * 16), 61, 61]
  | [a, b] => [b64char (a / 4), b64char (a % 4 * 16 + b / 16), b64char (b % 16 * 4), 61]
  | a :: b :: c :: rest =>
    b64char (a / 4) :: b64char (a % 4 * 16 + b / 16) ::
      b64char (b % 16 * 4 + c / 64) :: b64char (c % 64) :: b64encode rest

/-- `base64.urlsafe_b64decode`: four ASCII codes back to three bytes,
honouring `=` padding at the end only. -/
def b64decode : List Nat → Option (List Nat)
  | [] => some []
  | c0 :: c1 :: c2 :: c3 :: rest =>
    (b64val c0).bind (fun s0 =>
    (b64val c1).bind (fun s1 =>
      if c2 = 61 then
        if c3 = 61 ∧ rest = [] then some [s0 * 4 + s1 / 16] else none
      else
        (b64val c2).bind (fun s2 =>
          if c3 = 61 then
            if rest = [] then some [s0 * 4 + s1 / 16, s1 % 16 * 16 + s2 / 4]
            else none
          else
            (b64val c3).bind (fun s3 =>
              (b64decode rest).map (fun tail =>
                (s0 * 4 + s1 / 16) :: (s1 % 16 * 16 + s2 / 4) ::
                  (s2 % 4 * 64 + s3) :: tail)))))
  | _ => none

/-- Decoding inverts encoding on genuine byte strings. -/
theorem b64decode_encode : ∀ l : List Nat, (∀ x ∈ l, x < 256) →
    b64decode (b64encode l) = some l
  | [] => fun _ => rfl
  | [a] => fun h => by
    have ha : a < 256 := h a (by simp)
    have v0 : b64val (b64char (a / 4)) = some (a / 4) :=
      b64val_b64char _ (by omega)
    have v1 : b64val (b64char (a % 4 * 16)) = some (a % 4 * 16) :=
      b64val_b64char _ (by omega)
    simp only [b64encode, b64decode]
    simp [v0, v1]
    all_goals omega
  | [a, b] => fun h => by
    have ha : a < 256 := h a (by simp)
    have hb : b < 256 := h b (by simp)
    have v0 : b64val (b64char (a / 4)) = some (a / 4) :=
      b64val_b64char _ (by omega)
    have v1 : b64val (b64char (a % 4 * 16 + b / 16)) = some (a % 4 * 16 + b / 16) :=
      b64val_b64char _ (by omega)
    have v2 : b64val (b64char (b % 16 * 4)) = some (b % 16 * 4) :=
      b64val_b64char _ (by omega)
    simp only [b64encode, b64decode]
    simp [v0, v1, v2, b64char_ne_61]
    all_goals omega
  | a :: b :: c :: rest => fun h => by
    have ha : a < 256 := h a (by simp)
    have hb : b < 256 := h b (by simp)
    have hc : c < 256 := h c (by simp)
    have ih := b64decode_encode rest (fun x hx => h x (by simp [hx]))
    have v0 : b64val (b64char (a / 4)) = some (a / 4) :=
      b64val_b64char _ (by omega)
    have v1 : b64val (b64char (a % 4 * 16 + b / 16)) = some (a % 4 * 16 + b / 16) :=
      b64val_b64char _ (by omega)
    have v2 : b64val (b64char (b % 16 * 4 + c / 64)) = some (b % 16 * 4 + c / 64) :=
      b64val_b64char _ (by omega)
    have v3 : b64val (b64char (c % 64)) = some (c % 64) :=
      b64val_b64char _ (by omega)
    simp only [b64encode]
    simp only [b64decode]
    simp [v0, v1, v2, v3, b64char_ne_61, ih]
    all_goals omega

/-- Encoding never shortens. -/
theorem b64encode_length_ge : ∀ l : List Nat, l.length ≤ (b64encode l).length
  | [] => by simp [b64encode]
  | [a] => by simp [b64encode]
  | [a, b] => by simp [b64encode]
  | a :: b :: c :: rest => by
    have ih := b64encode_length_ge rest
    simp only [b64encode, List.length_cons]
    omega

/-- PKCS7 padding to 16-byte blocks: append `p` copies of the byte `p`,
`1 ≤ p ≤ 16`. -/
def pkcs7pad (m : List Nat) : List Nat :=
  m ++ List.replicate (16 - m.length % 16) (16 - m.length % 16)

/-- PKCS7 unpadding: read the last byte `p`, check the padding, strip
it. -/
def pkcs7unpad (m : List Nat) : Option (List Nat) :=
  match m.getLast? with
  | none => none
  | some p =>
    if 1 ≤ p ∧ p ≤ 16 ∧ p ≤ m.length ∧
        (m.drop (m.length - p)).all (fun b => b == p)
    then some (m.take (m.length - p))
    else none

theorem pkcs7unpad_pad (m : List Nat) : pkcs7unpad (pkcs7pad m) = some m := by
  have hp1 : 1 ≤ 16 - m.length % 16 := by omega
  have hp16 : 16 - m.length % 16 ≤ 16 := by omega
  have hlen : (pkcs7pad m).length = m.length + (16 - m.length % 16) := by
    simp [pkcs7pad]
  have hlast : (pkcs7pad m).getLast? = some (16 - m.length % 16) := by
    unfold pkcs7pad
    rw [List.getLast?_append_of_ne_nil _ (by simp; omega)]
    have : 16 - m.length % 16 = (16 - m.length % 16 - 1) + 1 := by omega
    rw [this, List.replicate_succ', List.getLast?_concat]
  unfold pkcs7unpad
  simp only [hlast]
  rw [if_pos]
  · congr 1
    have : (pkcs7pad m).length - (16 - m.length % 16) = m.length := by omega
    rw [this]
    unfold pkcs7pad
    exact List.take_left m _
  · refine ⟨hp1, hp16, by omega, ?_⟩
    have : (pkcs7pad m).length - (16 - m.length % 16) = m.length := by omega
    rw [this]
    unfold pkcs7pad
    rw [List.drop_left m _]
    simp

/-- Padding produced from genuine bytes is genuine bytes. -/
theorem pkcs7pad_bytes (m : List Nat) (h : ∀ x ∈ m, x < 256) :
    ∀ x ∈ pkcs7pad m, x < 256 := by
  intro x hx
  unfold pkcs7pad at hx
  rcases List.mem_append.mp hx with hm | hr
  · exact h x hm
  · have := List.eq_of_mem_replicate hr
    omega

/-- The AES-CBC core and the HMAC of the Fernet construction, abstract
external primitives. -/
structure CoreCipher where
  blockEnc : List Nat → List Nat → List Nat
  blockDec : List Nat → List Nat → List Nat
  mac : List Nat → List Nat

/-- The binary Fernet token body followed by its HMAC, base64url
encoded: `base64url( 0x80 || ts(8) || iv(16) || enc(iv, pad m) ||
mac(32) )`. -/
def fernet_encrypt (C : CoreCipher) (ts iv m : List Nat) : List Nat :=
  b64encode ((128 :: (ts ++ (iv ++ C.blockEnc iv (pkcs7pad m)))) ++
    C.mac (128 :: (ts ++ (iv ++ C.blockEnc iv (pkcs7pad m)))))

/-- Fernet decryption: base64-decode, check minimum length and the
version byte, verify the HMAC over everything but the last 32 bytes,
decrypt the ciphertext after the 25-byte header, unpad. -/
def fernet_decrypt (C : CoreCipher) (tok : List Nat) : Option (List Nat) :=
  (b64decode tok).bind (fun raw =>
    if raw.length < 57 then none
    else if raw.take 1 ≠ [128] then none
    else if C.mac (raw.take (raw.length - 32)) ≠ raw.drop (raw.length - 32) then none
    else pkcs7unpad (C.blockDec (((raw.take (raw.length - 32)).drop 9).take 16)
      ((raw.take (raw.length - 32)).drop 25)))

/-- `encrypt_token` (encryption.py lines 32-52): rejects the empty
token, otherwise produces the Fernet token over the token's bytes.
The timestamp and IV drawn by the library are parameters. -/
def encrypt_token (C : CoreCipher) (ts iv : List Nat) (token : List Nat) :
    Option (List Nat) :=
  if token = [] then none
  else some (fernet_encrypt C ts iv token)

/-- `decrypt_token` (encryption.py lines 55-77): rejects the empty
input, otherwise Fernet-decrypts; a `none` models the
`InvalidToken`/`ValueError` raises. -/
def decrypt_token (C : CoreCipher) (encrypted : List Nat) :
    Option (List Nat) :=
  if encrypted = [] then none
  else fernet_decrypt C encrypted

/-- C3: for every non-empty byte string `t` (entries genuine bytes),
`decrypt_token` inverts `encrypt_token`, and the ciphertext bytes never
equal the plaintext's byte encoding.  The hypotheses are the format of
the library-drawn header (8-byte timestamp, 16-byte IV) and the laws of
the external AES-CBC core and HMAC: decryption inverts encryption,
block encryption preserves length, both primitives emit genuine
bytes. -/
theorem C3_token_roundtrip (C : CoreCipher) (ts iv t : List Nat)
    (hts_len : ts.length = 8) (hiv_len : iv.length = 16)
    (hts : ∀ x ∈ ts, x < 256) (hiv : ∀ x ∈ iv, x < 256)
    (ht : ∀ x ∈ t, x < 256) (hne : t ≠ [])
    (hdec : ∀ v m, C.blockDec v (C.blockEnc v m) = m)
    (hlen : ∀ v m, (C.blockEnc v m).length = m.length)
    (hbytes : ∀ v m, (∀ x ∈ m, x < 256) → ∀ x ∈ C.blockEnc v m, x < 256)
    (hmac_len : ∀ b, (C.mac b).length = 32)
    (hmac_bytes : ∀ b, ∀ x ∈ C.mac b, x < 256) :
    ∀ ct, encrypt_token C ts iv t = some ct →
      decrypt_token C ct = some t ∧ ct ≠ t := by
  intro ct hct
  simp only [encrypt_token, if_neg hne, Option.some.injEq] at hct
  subst hct
  have henclen : (C.blockEnc iv (pkcs7pad t)).length =
      t.length + (16 - t.length % 16) := by
    rw [hlen]
    simp [pkcs7pad]
  have hbody_bytes : ∀ x ∈ 128 :: (ts ++ (iv ++ C.blockEnc iv (pkcs7pad t))),
      x < 256 := by
    intro x hx
    rcases List.mem_cons.mp hx with h1 | h1
    · omega
    · rcases List.mem_append.mp h1 with h2 | h2
      · exact hts x h2
      · rcases List.mem_append.mp h2 with h3 | h3
        · exact hiv x h3
        · exact hbytes iv (pkcs7pad t) (pkcs7pad_bytes t ht) x h3
  have hraw_bytes : ∀ x ∈ (128 :: (ts ++ (iv ++ C.blockEnc iv (pkcs7pad t)))) ++
      C.mac (128 :: (ts ++ (iv ++ C.blockEnc iv (pkcs7pad t)))), x < 256 := by
    intro x hx
    rcases List.mem_append.mp hx with h1 | h1
    · exact hbody_bytes x h1
    · exact hmac_bytes _ x h1
  have hdecode := b64decode_encode _ hraw_bytes
  have hbodylen : (128 :: (ts ++ (iv ++ C.blockEnc iv (pkcs7pad t)))).length =
      25 + (C.blockEnc iv (pkcs7pad t)).length := by
    simp [hts_len, hiv_len]
    omega
  have hrawlen : ((128 :: (ts ++ (iv ++ C.blockEnc iv (pkcs7pad t)))) ++
      C.mac (128 :: (ts ++ (iv ++ C.blockEnc iv (pkcs7pad t))))).length =
      57 + (C.blockEnc iv (pkcs7pad t)).length := by
    rw [List.length_append, hbodylen, hmac_len]
    omega
  have hctlen : t.length <
      (fernet_encrypt C ts iv t).length := by
    have hge := b64encode_length_ge ((128 :: (ts ++ (iv ++ C.blockEnc iv (pkcs7pad t)))) ++
      C.mac (128 :: (ts ++ (iv ++ C.blockEnc iv (pkcs7pad t)))))
    rw [hrawlen] at hge
    unfold fernet_encrypt
    omega
  constructor
  · -- decryption inverts encryption
    have hctne : fernet_encrypt C ts iv t ≠ [] := by
      intro hcontra
      rw [hcontra] at hctlen
      simp at hctlen
    unfold decrypt_token
    rw [if_neg hctne]
    unfold fernet_decrypt fernet_encrypt
    rw [hdecode]
    have hsub : ((128 :: (ts ++ (iv ++ C.blockEnc iv (pkcs7pad t)))) ++
        C.mac (128 :: (ts ++ (iv ++ C.blockEnc iv (pkcs7pad t))))).length - 32 =
        (128 :: (ts ++ (iv ++ C.blockEnc iv (pkcs7pad t)))).length := by
      rw [List.length_append, hmac_len]
      omega
    have htake : ((128 :: (ts ++ (iv ++ C.blockEnc iv (pkcs7pad t)))) ++
        C.mac (128 :: (ts ++ (iv ++ C.blockEnc iv (pkcs7pad t))))).take
          (((128 :: (ts ++ (iv ++ C.blockEnc iv (pkcs7pad t)))) ++
            C.mac (128 :: (ts ++ (iv ++ C.blockEnc iv (pkcs7pad t))))).length - 32) =
        128 :: (ts ++ (iv ++ C.blockEnc iv (pkcs7pad t))) := by
      rw [hsub]
      exact List.take_left _ _
    have hdrop : ((128 :: (ts ++ (iv ++ C.blockEnc iv (pkcs7pad t)))) ++
        C.mac (128 :: (ts ++ (iv ++ C.blockEnc iv (pkcs7pad t))))).drop
          (((128 :: (ts ++ (iv ++ C.blockEnc iv (pkcs7pad t)))) ++
            C.mac (128 :: (ts ++ (iv ++ C.blockEnc iv (pkcs7pad t))))).length - 32) =
        C.mac (128 :: (ts ++ (iv ++ C.blockEnc iv (pkcs7pad t)))) := by
      rw [hsub]
      exact List.drop_left _ _
    have hiv_extract : ((128 :: (ts ++ (iv ++ C.blockEnc iv (pkcs7pad t)))).drop 9).take 16 =
        iv := by
      rw [List.drop_succ_cons]
      rw [show (8 : Nat) = ts.length from hts_len.symm, List.drop_left]
      rw [show (16 : Nat) = iv.length from hiv_len.symm, List.take_left]
    have hct_extract : (128 :: (ts ++ (iv ++ C.blockEnc iv (pkcs7pad t)))).drop 25 =
        C.blockEnc iv (pkcs7pad t) := by
      rw [List.drop_succ_cons]
      rw [show (24 : Nat) = ts.length + 16 from by omega, List.drop_append]
      rw [show (16 : Nat) = iv.length from hiv_len.symm, List.drop_left]
    rw [Option.some_bind]
    rw [if_neg (by rw [hrawlen]; omega)]
    rw [if_neg (by simp)]
    rw [htake, hdrop]
    rw [if_neg (by simp)]
    rw [hiv_extract, hct_extract, hdec]
    exact pkcs7unpad_pad t
  · -- ciphertext differs from the plaintext bytes
    intro hcontra
    rw [hcontra] at hctlen
    omega

/-- Witness for C3 with the identity block cipher and the zero MAC:
the two-byte plaintext round-trips and its token differs from it. -/
theorem C3_token_roundtrip_witness :
    let IC : CoreCipher :=
      { blockEnc := fun _ m => m, blockDec := fun _ m => m,
        mac := fun _ => List.replicate 32 0 }
    decrypt_token IC (fernet_encrypt IC (List.replicate 8 0)
      (List.replicate 16 0) [104, 105]) = some [104, 105] ∧
    fernet_encrypt IC (List.replicate 8 0) (List.replicate 16 0) [104, 105] ≠
      [104, 105] := by
  intro IC
  exact C3_token_roundtrip IC (List.replicate 8 0) (List.replicate 16 0)
    [104, 105] (by simp) (by simp)
    (by intro x hx; have := List.eq_of_mem_replicate hx; omega)
    (by intro x hx; have := List.eq_of_mem_replicate hx; omega)
    (by decide) (by decide)
    (fun v m => rfl) (fun v m => rfl) (fun v m h => h)
    (fun b => by simp)
    (fun b x hx => by have := List.eq_of_mem_replicate hx; omega)
    (fernet_encrypt IC (List.replicate 8 0) (List.replicate 16 0) [104, 105])
    rfl

end TaskManager
